import Mathlib

/-!
Shallow embedding of `src/standard/invoker/mod.rs`: the transaction- and
call-stack orchestrator (`Invoker`) of an EVM-compatible execution engine,
with its four operations `new_transact`, `finalize_transact`,
`enter_substack` and `exit_substack`.

Modelling conventions:
* `U256` is `Nat`; the saturating operations of `primitive_types::U256`
  (`saturating_mul`, `saturating_add`, `saturating_sub`) are made explicit,
  saturating at `2 ^ 256 - 1`.
* External collaborators that are not part of this file of the repository
  (the backend `H`, the gasometer `G`, the interpreter machine builders in
  `routines`, the trap-data decoder in `crate::call_create`) are modelled as
  oracle fields of a `Handler` record; fallible ones return `Except ExitError`.
  Opaque values they produce (gasometers, machines, interpreter states) are
  represented by `Nat` tokens.
* Every call the orchestrator itself makes on the backend in
  `src/standard/invoker/mod.rs` is recorded in an explicit event trace
  (`Event`), so that push/pop balancing, hot-marking order and deposits are
  observable propositions.
-/

set_option autoImplicit false

/-- 256-bit machine integers, embedded as `Nat` with explicit saturation. -/
abbrev U256 := Nat

/-- `U256::MAX = 2^256 - 1`. -/
def U256.maxValue : Nat := 2 ^ 256 - 1

/-- `U256::saturating_mul`. -/
def satMul (a b : U256) : U256 := min (a * b) U256.maxValue

/-- `U256::saturating_add`. -/
def satAdd (a b : U256) : U256 := min (a + b) U256.maxValue

/-- `U256::saturating_sub` (on `Nat`, truncated subtraction is saturating). -/
def satSub (a b : U256) : U256 := a - b

/-- 160-bit addresses, abstracted to `Nat`. -/
abbrev H160 := Nat

/-- 256-bit hashes / storage keys, abstracted to `Nat`. -/
abbrev H256 := Nat

/-- Opcodes are abstract byte values. -/
abbrev Opcode := Nat

/-- `ExitException`: protocol-recoverable failures (the variants the claims
mention; other variants are represented by a numeric code). -/
inductive ExitException where
  | outOfGas
  | outOfFund
  | callTooDeep
  | createContractLimit
  | other (code : Nat)
deriving DecidableEq, Repr

/-- `ExitError`: `Exception`, `Reverted` or `Fatal` (fatal carried as a code). -/
inductive ExitError where
  | exception (e : ExitException)
  | reverted
  | fatal (code : Nat)
deriving DecidableEq, Repr

/-- `ExitSucceed`. -/
inductive ExitSucceed where
  | stopped
  | returned
  | suicided
deriving DecidableEq, Repr

/-- `ExitResult = Result<ExitSucceed, ExitError>`. -/
abbrev ExitResult := Except ExitError ExitSucceed

deriving instance DecidableEq for Except

/-- `MergeStrategy`. -/
inductive MergeStrategy where
  | commit
  | revert
  | discard
deriving DecidableEq, Repr

/-- The backend/handler calls the orchestrator makes in
`src/standard/invoker/mod.rs`, recorded as an observable trace.
`decodeTrap` records the trap-data extraction from the parent machine
(`CallCreateTrapData::new_from`); `enterCallRoutine`/`enterCreateRoutine`
record the handoff to `routines::enter_call_substack` /
`routines::enter_create_substack` together with the `is_static` flag and the
child gas limit passed there; `feedbackCall`/`feedbackCreate` record the
outcome written back into the parent machine by `trap.feedback`. -/
inductive Event where
  | withdrawal (address : H160) (amount : U256)
  | deposit (address : H160) (amount : U256)
  | pushSubstate
  | popSubstate (strategy : MergeStrategy)
  | markHot (address : H160) (key : Option H256)
  | codeLookup (address : H160)
  | incNonce (address : H160)
  | decodeTrap
  | enterCallRoutine (staticFlag : Bool) (gasLimit : U256)
  | enterCreateRoutine (staticFlag : Bool) (gasLimit : U256)
  | stateMerge (strategy : MergeStrategy)
  | gasMerge (strategy : MergeStrategy)
  | feedbackCall (result : ExitResult)
  | feedbackCreate (result : Except ExitError H160)
deriving DecidableEq, Repr

/-- The configuration fields of `Config` read by `invoker/mod.rs`. -/
structure Config where
  call_stack_limit : Nat
  call_l64_after_gas : Bool
  call_stipend : Nat
  increase_state_access_gas : Bool
  warm_coinbase_address : Bool
deriving DecidableEq, Repr

/-- `Context { address, caller, apparent_value }`. -/
structure Context where
  address : H160
  caller : H160
  apparent_value : U256
deriving DecidableEq, Repr

/-- `TransactionContext { origin, gas_price }`. -/
structure TransactionContext where
  origin : H160
  gas_price : U256
deriving DecidableEq, Repr

/-- `Transfer { source, target, value }`. -/
structure Transfer where
  source : H160
  target : H160
  value : U256
deriving DecidableEq, Repr

/-- `RuntimeState { context, transaction_context, retbuf, gas }`. -/
structure RuntimeState where
  context : Context
  transaction_context : TransactionContext
  retbuf : List Nat
  gas : U256
deriving DecidableEq, Repr

/-- `CreateScheme`: legacy (caller + nonce, delegated to the backend) or
salted `Create2` derivation. -/
inductive CreateScheme where
  | legacy (caller : H160)
  | create2 (caller : H160) (code_hash : H256) (salt : H256)
deriving DecidableEq, Repr

/-- `CreateScheme::caller()`. -/
def CreateScheme.caller : CreateScheme → H160
  | .legacy c => c
  | .create2 c _ _ => c

/-- `CallTrapData` (from `crate::call_create`, whose source is not under
`src/`). Modelled from the spec: the decoded call trap carries the target,
the transferred value, the optional explicit gas requested by the opcode,
the opcode's own static flag, and the child context (§4.3 step 1). The
fields `context` and `is_static` are the ones `invoker/mod.rs` reads
directly. -/
structure CallTrapData where
  target : H160
  value : U256
  gas : Option U256
  is_static : Bool
  context : Context
deriving DecidableEq, Repr

/-- Modelled from the spec: `CallTrapData::has_value()` holds exactly when
the call carries a non-zero value transfer (§4.3 step 3). -/
def CallTrapData.has_value (c : CallTrapData) : Bool := c.value ≠ 0

/-- `CreateTrapData` (from `crate::call_create`, not under `src/`): the
creation scheme, the transferred value and the initialization code. -/
structure CreateTrapData where
  scheme : CreateScheme
  value : U256
  init_code : List Nat
deriving DecidableEq, Repr

/-- `CallCreateTrapData`. -/
inductive CallCreateTrapData where
  | call (trap : CallTrapData)
  | create (trap : CreateTrapData)
deriving DecidableEq, Repr

/-- Modelled from the spec: `CallCreateTrapData::target_gas()` is the
optional explicit gas requested by the opcode (§4.3 step 2); creation
opcodes request none. -/
def CallCreateTrapData.target_gas : CallCreateTrapData → Option U256
  | .call c => c.gas
  | .create _ => none

/-- The opcode-level static flag of the trap: the call opcode's own request,
`false` for a creation (the `match` at the `is_static` computation of
`enter_substack`). -/
def CallCreateTrapData.static_flag : CallCreateTrapData → Bool
  | .call c => c.is_static
  | .create _ => false

/-- `SubstackInvoke`. -/
inductive SubstackInvoke where
  | call (trap : CallTrapData)
  | create (trap : CreateTrapData) (address : H160)
deriving DecidableEq, Repr

/-- `TransactInvoke`: the per-transaction record built by `new_transact` and
read by `finalize_transact`. -/
structure TransactInvoke where
  create_address : Option H160
  gas_fee : U256
  gas_price : U256
  caller : H160
deriving DecidableEq, Repr

/-- `TransactArgs`. -/
inductive TransactArgs where
  | call (caller : H160) (address : H160) (value : U256) (data : List Nat)
      (gas_limit : U256) (gas_price : U256)
      (access_list : List (H160 × List H256))
  | create (caller : H160) (value : U256) (init_code : List Nat)
      (salt : Option H256) (gas_limit : U256) (gas_price : U256)
      (access_list : List (H160 × List H256))
deriving DecidableEq, Repr

/-- `TransactArgs::gas_limit`. -/
def TransactArgs.gas_limit : TransactArgs → U256
  | .call _ _ _ _ gas_limit _ _ => gas_limit
  | .create _ _ _ _ gas_limit _ _ => gas_limit

/-- `TransactArgs::gas_price`. -/
def TransactArgs.gas_price : TransactArgs → U256
  | .call _ _ _ _ _ gas_price _ => gas_price
  | .create _ _ _ _ _ gas_price _ => gas_price

/-- `TransactArgs::access_list`. -/
def TransactArgs.access_list : TransactArgs → List (H160 × List H256)
  | .call _ _ _ _ _ _ access_list => access_list
  | .create _ _ _ _ _ _ access_list => access_list

/-- `TransactArgs::caller`. -/
def TransactArgs.caller : TransactArgs → H160
  | .call caller _ _ _ _ _ _ => caller
  | .create caller _ _ _ _ _ _ => caller

/-- `TransactArgs::value`. -/
def TransactArgs.value : TransactArgs → U256
  | .call _ _ value _ _ _ _ => value
  | .create _ value _ _ _ _ _ => value

/-- Oracles for the external collaborators of the invoker: the runtime
backend `H` (withdrawal, hot-marking, code lookup, nonce, coinbase, address
derivation, keccak), the gasometer `G` (transact-gasometer constructors and
`submeter`), the `routines` module (machine builders, substack entry,
`deploy_create_code`), the trap decoder `CallCreateTrapData::new_from`, and
the write-back continuations `trap.feedback`. Opaque machines, gasometers
and interpreter states they produce are `Nat` tokens; the orchestrator
itself never inspects them. -/
structure Handler where
  withdrawal : H160 → U256 → Except ExitError Unit
  block_coinbase : H160
  mark_hot : H160 → Option H256 → Except ExitError Unit
  code : H160 → List Nat
  inc_nonce : H160 → Except ExitError Unit
  keccak : List Nat → H256
  create_address : CreateScheme → H160
  new_transact_call_gasometer :
    U256 → List Nat → List Nat → List (H160 × List H256) → Except ExitError Nat
  new_transact_create_gasometer :
    U256 → List Nat → List (H160 × List H256) → Except ExitError Nat
  make_enter_call_machine :
    List Nat → List Nat → Bool → Option Transfer → RuntimeState → Nat →
      Except ExitError Nat
  make_enter_create_machine :
    H160 → List Nat → Bool → Transfer → RuntimeState → Nat →
      Except ExitError Nat
  decode : Opcode → Nat → Except ExitError CallCreateTrapData × Nat
  submeter : U256 → List Nat → Except ExitError Nat
  enter_call_substack :
    List Nat → CallTrapData → Bool → RuntimeState → Nat →
      Except ExitError (SubstackInvoke × Nat) × List Event
  enter_create_substack :
    List Nat → CreateTrapData → Bool → RuntimeState → Nat →
      Except ExitError (SubstackInvoke × Nat) × List Event
  deploy_create_code : H160 → List Nat → Except ExitError Unit
  feedback_call : ExitResult → List Nat → Except ExitError Unit
  feedback_create : Except ExitError H160 → List Nat → Except ExitError Unit

/-- Inner loop of the access-list hot-marking in `new_transact`:
`for key in keys { handler.mark_hot(*address, Some(*key))?; }`. -/
def mark_keys (env : Handler) (a : H160) :
    List H256 → Except ExitError Unit × List Event
  | [] => (.ok (), [])
  | k :: ks =>
    match env.mark_hot a (some k) with
    | .error e => (.error e, [])
    | .ok _ =>
      let (r, evs) := mark_keys env a ks
      (r, .markHot a (some k) :: evs)

/-- The access-list hot-marking loop of `new_transact`:
`for (address, keys) in &access_list { handler.mark_hot(*address, None)?; … }`. -/
def mark_access_list (env : Handler) :
    List (H160 × List H256) → Except ExitError Unit × List Event
  | [] => (.ok (), [])
  | (a, ks) :: rest =>
    match env.mark_hot a none with
    | .error e => (.error e, [])
    | .ok _ =>
      match mark_keys env a ks with
      | (.error e, evs) => (.error e, .markHot a none :: evs)
      | (.ok _, evs) =>
        let (r, evs2) := mark_access_list env rest
        (r, .markHot a none :: (evs ++ evs2))

/-- The post-machine warm-address marks of the `Call` arm of `new_transact`:
under `increase_state_access_gas`, optionally the coinbase, then the caller,
then the target. -/
def warm_addresses (config : Config) (env : Handler) (caller address : H160) :
    Except ExitError Unit × List Event :=
  if config.increase_state_access_gas then
    let coinbase_step : Except ExitError Unit × List Event :=
      if config.warm_coinbase_address then
        match env.mark_hot env.block_coinbase none with
        | .error e => (.error e, [])
        | .ok _ => (.ok (), [.markHot env.block_coinbase none])
      else (.ok (), [])
    match coinbase_step with
    | (.error e, evs) => (.error e, evs)
    | (.ok _, evs) =>
      match env.mark_hot caller none with
      | .error e => (.error e, evs)
      | .ok _ =>
        match env.mark_hot address none with
        | .error e => (.error e, evs ++ [.markHot caller none])
        | .ok _ => (.ok (), evs ++ [.markHot caller none, .markHot address none])
  else (.ok (), [])

/-- The `work` closure of `new_transact` (everything between the substate
push and the `match work()`): hot-marks the access list, looks up the code,
builds the transact gasometer and the initial machine, applies the warm
marks and increments the caller nonce (`Call` arm), or builds the creation
gasometer and machine (`Create` arm). -/
def transact_work (config : Config) (env : Handler) (invoke : TransactInvoke)
    (context : Context) (transaction_context : TransactionContext)
    (transfer : Transfer) (args : TransactArgs) :
    Except ExitError (TransactInvoke × Nat) × List Event :=
  match args with
  | .call caller address _ data gas_limit _ access_list =>
    match mark_access_list env access_list with
    | (.error e, evs) => (.error e, evs)
    | (.ok _, evs) =>
      let code := env.code address
      let evs := evs ++ [Event.codeLookup address]
      match env.new_transact_call_gasometer gas_limit code data access_list with
      | .error e => (.error e, evs)
      | .ok gasometer =>
        match env.make_enter_call_machine code data false (some transfer)
            { context, transaction_context, retbuf := [], gas := gas_limit }
            gasometer with
        | .error e => (.error e, evs)
        | .ok machine =>
          match warm_addresses config env caller address with
          | (.error e, wevs) => (.error e, evs ++ wevs)
          | (.ok _, wevs) =>
            match env.inc_nonce caller with
            | .error e => (.error e, evs ++ wevs)
            | .ok _ =>
              (.ok (invoke, machine), evs ++ wevs ++ [Event.incNonce caller])
  | .create caller _ init_code _ gas_limit _ access_list =>
    match env.new_transact_create_gasometer gas_limit init_code access_list with
    | .error e => (.error e, [])
    | .ok gasometer =>
      match env.make_enter_create_machine caller init_code false transfer
          { context, transaction_context, retbuf := [], gas := gas_limit }
          gasometer with
      | .error e => (.error e, [])
      | .ok machine => (.ok (invoke, machine), [])

/-- The effective target address derived by `new_transact`: the explicit
target for `Call`; for `Create`, the salted `Create2` scheme when a salt is
present (hashing the init code), otherwise the legacy scheme. -/
def transact_address (env : Handler) : TransactArgs → H160
  | .call _ address _ _ _ _ _ => address
  | .create caller _ init_code salt _ _ _ =>
    match salt with
    | some salt => env.create_address (.create2 caller (env.keccak init_code) salt)
    | none => env.create_address (.legacy caller)

/-- The `TransactInvoke` record `new_transact` constructs. -/
def transact_invoke_of (env : Handler) (args : TransactArgs) : TransactInvoke :=
  { gas_fee := satMul args.gas_limit args.gas_price
    gas_price := args.gas_price
    caller := args.caller
    create_address :=
      match args with
      | .call _ _ _ _ _ _ _ => none
      | .create _ _ _ _ _ _ _ => some (transact_address env args) }

/-- `Invoker::new_transact`: withhold the gas fee, derive the effective
address, push the transaction substate scope, run the `work` closure, and on
its failure pop the scope with `Discard` and propagate the error. Returns
the result together with the trace of backend calls made. -/
def new_transact (config : Config) (env : Handler) (args : TransactArgs) :
    Except ExitError (TransactInvoke × Nat) × List Event :=
  let caller := args.caller
  let gas_price := args.gas_price
  let gas_fee := satMul args.gas_limit gas_price
  match env.withdrawal caller gas_fee with
  | .error e => (.error e, [])
  | .ok _ =>
    let address := transact_address env args
    let value := args.value
    let invoke := transact_invoke_of env args
    let context : Context := { caller, address, apparent_value := value }
    let transaction_context : TransactionContext := { origin := caller, gas_price }
    let transfer : Transfer := { source := caller, target := address, value }
    let (work_result, work_events) :=
      transact_work config env invoke context transaction_context transfer args
    match work_result with
    | .ok ret =>
      (.ok ret, .withdrawal caller gas_fee :: .pushSubstate :: work_events)
    | .error err =>
      (.error err,
        .withdrawal caller gas_fee :: .pushSubstate ::
          (work_events ++ [.popSubstate .discard]))

/-- The machine handed to `finalize_transact`: the orchestrator reads only
`gasometer.gas()` (the leftover gas, read before any deployment charge) and
`machine.into_retbuf()` (the retained return buffer). -/
structure FinalizeMachine where
  gas : U256
  retbuf : List Nat
deriving DecidableEq, Repr

/-- The `work` closure of `finalize_transact`: for a successful creation,
deploy the returned payload as the contract code (which may itself fail),
then pair the exit reason with the optional created address. -/
def finalize_work (env : Handler) (invoke : TransactInvoke)
    (result : ExitResult) (machine : FinalizeMachine) :
    Except ExitError (ExitSucceed × Option H160) :=
  match result with
  | .error e => .error e
  | .ok s =>
    match invoke.create_address with
    | some address =>
      match env.deploy_create_code address machine.retbuf with
      | .error e => .error e
      | .ok _ => .ok (s, some address)
    | none => .ok (s, none)

/-- `Invoker::finalize_transact`: for a successful creation run the code
deployment, then refund `left_gas × gas_price` to the caller when the final
outcome is success or revert (zero otherwise), pay the coinbase
`gas_fee − refunded_fee`, and pop the transaction scope with `Commit` on
success or `Discard` on failure. -/
def finalize_transact (env : Handler) (invoke : TransactInvoke)
    (result : ExitResult) (machine : FinalizeMachine) :
    Except ExitError (ExitSucceed × Option H160) × List Event :=
  let left_gas := machine.gas
  let work_result := finalize_work env invoke result machine
  let refunded_gas : U256 :=
    match work_result with
    | .ok _ => left_gas
    | .error .reverted => left_gas
    | .error _ => 0
  let refunded_fee := satMul refunded_gas invoke.gas_price
  let coinbase_reward := satSub invoke.gas_fee refunded_fee
  let deposits : List Event :=
    [.deposit invoke.caller refunded_fee,
     .deposit env.block_coinbase coinbase_reward]
  match work_result with
  | .ok exit => (.ok exit, deposits ++ [.popSubstate .commit])
  | .error err => (.error err, deposits ++ [.popSubstate .discard])

/-- `Capture`: either an exit value or a deferred external interrupt. -/
inductive Capture (E : Type) (I : Type) where
  | exit (value : E)
  | trap (interrupt : I)
deriving DecidableEq, Repr

/-- The parent machine as read by `enter_substack`: the gasometer's
remaining gas, the frame's static flag, the shared transaction context, and
an opaque token for the interpreter state the trap decoder mutates. -/
structure ParentMachine where
  gas : U256
  is_static : Bool
  tx_context : TransactionContext
  inner : Nat
deriving DecidableEq, Repr

/-- The local `l64` helper of `enter_substack`: `gas - gas / 64`. -/
def l64 (gas : U256) : U256 := gas - gas / 64

/-- The gas available to forward to a child before any stipend: the 63/64
rule applied to the parent's remaining gas when configured, capped by the
explicitly requested gas when the opcode supplies one (the
`after_gas`/`target_gas`/`min` computation of `enter_substack`). -/
def forwarded_gas (config : Config) (remaining : U256)
    (trap_data : CallCreateTrapData) : U256 :=
  let after_gas := if config.call_l64_after_gas then l64 remaining else remaining
  let target_gas := (trap_data.target_gas).getD after_gas
  min after_gas target_gas

/-- The child's gas budget: `forwarded_gas` plus the configured stipend when
the trap is a value-bearing call (the stipend `match` of `enter_substack`). -/
def child_gas_limit (config : Config) (remaining : U256)
    (trap_data : CallCreateTrapData) : U256 :=
  match trap_data with
  | .call call =>
    if call.has_value then
      satAdd (forwarded_gas config remaining trap_data) config.call_stipend
    else forwarded_gas config remaining trap_data
  | _ => forwarded_gas config remaining trap_data

/-- Modelled from the spec: `CallCreateTrapData::code(handler)` fetches the
child's code via the backend for a call (a code lookup on the call target),
and yields the initialization code for a creation (§4.3 step 5). -/
def fetch_code (env : Handler) :
    CallCreateTrapData → List Nat × List Event
  | .call c => (env.code c.target, [.codeLookup c.target])
  | .create c => (c.init_code, [])

/-- `Invoker::enter_substack`: resolve the trap (deferring to an external
interrupt when it is not a call/create opcode), enforce the depth limit,
decode the trap data out of the parent machine, compute the child gas
budget and static flag, fetch the code, derive the submeter, and hand off
to the substack-entry routine. Returns the capture, the (possibly decoded)
parent machine, and the trace. -/
def enter_substack {I : Type} (config : Config) (env : Handler)
    (trap : Except I Opcode) (machine : ParentMachine) (depth : Nat) :
    Capture (Except ExitError (SubstackInvoke × Nat)) I × ParentMachine × List Event :=
  match trap with
  | .error interrupt => (.trap interrupt, machine, [])
  | .ok opcode =>
    if depth ≥ config.call_stack_limit then
      (.exit (.error (.exception .callTooDeep)), machine, [])
    else
      match env.decode opcode machine.inner with
      | (.error err, inner2) =>
        (.exit (.error err), { machine with inner := inner2 }, [.decodeTrap])
      | (.ok trap_data, inner2) =>
        let machine := { machine with inner := inner2 }
        let gas_limit := child_gas_limit config machine.gas trap_data
        let is_static :=
          if machine.is_static then true else trap_data.static_flag
        let transaction_context := machine.tx_context
        let (code, code_events) := fetch_code env trap_data
        match env.submeter gas_limit code with
        | .error err =>
          (.exit (.error err), machine, .decodeTrap :: code_events)
        | .ok submeter =>
          match trap_data with
          | .call call_trap_data =>
            let substate : RuntimeState :=
              { context := call_trap_data.context, transaction_context
                retbuf := [], gas := gas_limit }
            let (res, evs) :=
              env.enter_call_substack code call_trap_data is_static substate submeter
            (.exit res, machine,
              .decodeTrap :: code_events ++
                .enterCallRoutine is_static gas_limit :: evs)
          | .create create_trap_data =>
            let caller := create_trap_data.scheme.caller
            let address := env.create_address create_trap_data.scheme
            let substate : RuntimeState :=
              { context :=
                  { address, caller, apparent_value := create_trap_data.value }
                transaction_context, retbuf := [], gas := gas_limit }
            let (res, evs) :=
              env.enter_create_substack code create_trap_data is_static substate submeter
            (.exit res, machine,
              .decodeTrap :: code_events ++
                .enterCreateRoutine is_static gas_limit :: evs)

/-- The merge strategy `exit_substack` derives from the child's outcome:
success → `Commit`, revert → `Revert`, any other error → `Discard`. -/
def merge_strategy_of : ExitResult → MergeStrategy
  | .ok _ => .commit
  | .error .reverted => .revert
  | .error _ => .discard

/-- The child machine consumed by `exit_substack`: opaque interpreter state
and gasometer tokens plus the working memory the return payload is taken
from. -/
structure ChildMachine where
  state : Nat
  memory : List Nat
  gasometer : Nat
deriving DecidableEq, Repr

/-- `Invoker::exit_substack`: derive the merge strategy from the child's
outcome, merge the child state, (for a successful creation) run code
deployment — overriding the outcome written back on its failure — pop the
substate scope, merge the gasometers, and feed the outcome back into the
parent machine. -/
def exit_substack (env : Handler) (result : ExitResult)
    (child : ChildMachine) (trap_data : SubstackInvoke) :
    Except ExitError Unit × List Event :=
  let strategy := merge_strategy_of result
  match trap_data with
  | .create _ address =>
    let retbuf := child.memory
    let result2 : Except ExitError H160 :=
      match result with
      | .error e => .error e
      | .ok _ =>
        match env.deploy_create_code address retbuf with
        | .error e => .error e
        | .ok _ => .ok address
    let evs : List Event :=
      [.stateMerge strategy, .popSubstate strategy, .gasMerge strategy,
       .feedbackCreate result2]
    match env.feedback_create result2 retbuf with
    | .error e => (.error e, evs)
    | .ok _ => (.ok (), evs)
  | .call _ =>
    let retbuf := child.memory
    let evs : List Event :=
      [.stateMerge strategy, .popSubstate strategy, .gasMerge strategy,
       .feedbackCall result]
    match env.feedback_call result retbuf with
    | .error e => (.error e, evs)
    | .ok _ => (.ok (), evs)

/-- Events that do not touch the substate stack or deposit funds. -/
def Event.neutral : Event → Bool
  | .pushSubstate => false
  | .popSubstate _ => false
  | .deposit _ _ => false
  | _ => true

/-- Number of substate pushes in a trace. -/
def push_count (trace : List Event) : Nat :=
  trace.countP fun e => match e with | .pushSubstate => true | _ => false

/-- The substate pops of a trace, in order, with their strategies. -/
def pops_of (trace : List Event) : List MergeStrategy :=
  trace.filterMap fun e => match e with | .popSubstate s => some s | _ => none

/-- Number of deposits in a trace. -/
def deposit_count (trace : List Event) : Nat :=
  trace.countP fun e => match e with | .deposit _ _ => true | _ => false

/-- The static flag carried by the first substack-entry handoff of a trace. -/
def routine_static : List Event → Option Bool
  | [] => none
  | .enterCallRoutine s _ :: _ => some s
  | .enterCreateRoutine s _ :: _ => some s
  | _ :: rest => routine_static rest

/-- The gas budget carried by the first substack-entry handoff of a trace. -/
def routine_gas : List Event → Option U256
  | [] => none
  | .enterCallRoutine _ g :: _ => some g
  | .enterCreateRoutine _ g :: _ => some g
  | _ :: rest => routine_gas rest

/-- The hot-mark events the access-list loop of `new_transact` produces on
full success: each address first, then its keys in order. -/
def hot_mark_events : List (H160 × List H256) → List Event
  | [] => []
  | (a, ks) :: rest =>
    Event.markHot a none ::
      (ks.map fun k => Event.markHot a (some k)) ++ hot_mark_events rest

/-- A handler whose oracles all succeed, used to instantiate the theorems on
concrete inputs. -/
def okHandler : Handler where
  withdrawal := fun _ _ => .ok ()
  block_coinbase := 99
  mark_hot := fun _ _ => .ok ()
  code := fun _ => []
  inc_nonce := fun _ => .ok ()
  keccak := fun _ => 0
  create_address := fun _ => 0
  new_transact_call_gasometer := fun _ _ _ _ => .ok 0
  new_transact_create_gasometer := fun _ _ _ => .ok 0
  make_enter_call_machine := fun _ _ _ _ _ _ => .ok 0
  make_enter_create_machine := fun _ _ _ _ _ _ => .ok 0
  decode := fun _ s => (.ok (.create { scheme := .legacy 0, value := 0, init_code := [] }), s)
  submeter := fun _ _ => .ok 0
  enter_call_substack := fun _ td _ _ _ => (.ok (.call td, 0), [])
  enter_create_substack := fun _ td _ _ _ => (.ok (.create td 0, 0), [])
  deploy_create_code := fun _ _ => .ok ()
  feedback_call := fun _ _ => .ok ()
  feedback_create := fun r _ => r.map fun _ => ()

/-- A mainnet-flavoured configuration for concrete instances. -/
def config0 : Config where
  call_stack_limit := 1024
  call_l64_after_gas := true
  call_stipend := 2300
  increase_state_access_gas := true
  warm_coinbase_address := true

/-- A concrete transaction context for instances. -/
def txc0 : TransactionContext := { origin := 1, gas_price := 10 }

/-- A concrete frame context for instances. -/
def ctx0 : Context := { address := 2, caller := 1, apparent_value := 0 }

/-- A concrete parent machine with the given remaining gas and static flag. -/
def pmachine (gas : U256) (static : Bool) : ParentMachine :=
  { gas, is_static := static, tx_context := txc0, inner := 0 }

/-- A concrete call trap with the given value, requested gas and static flag. -/
def calltrap (value : U256) (gas : Option U256) (static : Bool) : CallTrapData :=
  { target := 5, value, gas, is_static := static, context := ctx0 }

/-- A concrete creation trap. -/
def createtrap : CreateTrapData := { scheme := .legacy 1, value := 0, init_code := [] }

/-- C10: a trap that resolves to an external interrupt is returned as
`Trap(interrupt)` with no backend call and no parent-machine mutation, at
every depth — in particular also at or beyond the call-stack limit, where a
call/create trap would fail with call-too-deep. -/
theorem c10_interrupt_resolved_before_depth_check {I : Type} (config : Config)
    (env : Handler) (interrupt : I) (machine : ParentMachine) (depth : Nat) :
    enter_substack config env (.error interrupt) machine depth =
      (.trap interrupt, machine, []) := rfl

/-- C6: at depth at or beyond the configured call-stack limit,
`enter_substack` on a call/create opcode returns the call-too-deep
exception, leaves the parent machine unchanged, and makes no backend call
and no trap decoding (empty trace). -/
theorem c6_depth_limit_call_too_deep {I : Type} (config : Config)
    (env : Handler) (opcode : Opcode) (machine : ParentMachine) (depth : Nat)
    (h : config.call_stack_limit ≤ depth) :
    enter_substack (I := I) config env (.ok opcode) machine depth =
      (.exit (.error (.exception .callTooDeep)), machine, []) := by
  simp [enter_substack, h]

/-- Witness for C6 at the exact limit. -/
theorem c6_depth_limit_call_too_deep_witness :
    enter_substack (I := Unit) config0 okHandler (.ok 241) (pmachine 500 false) 1024 =
      (.exit (.error (.exception .callTooDeep)), pmachine 500 false, []) :=
  c6_depth_limit_call_too_deep config0 okHandler 241 (pmachine 500 false) 1024 (by decide)

/-- C8 (amended): the merge strategy applied by `exit_substack` to the state
merge, the substate pop and the gas-meter merge is derived from the child's
outcome as given at exit, before any code-deployment step: success maps to
`Commit`, revert to `Revert`, and any other exception or fatal error to
`Discard`. -/
theorem c8_merge_strategy_from_child_outcome (env : Handler)
    (result : ExitResult) (child : ChildMachine) (trap_data : SubstackInvoke) :
    ((exit_substack env result child trap_data).2.take 3 =
      [.stateMerge (merge_strategy_of result),
       .popSubstate (merge_strategy_of result),
       .gasMerge (merge_strategy_of result)]) ∧
    (∀ s, result = .ok s → merge_strategy_of result = .commit) ∧
    (result = .error .reverted → merge_strategy_of result = .revert) ∧
    (∀ e, result = .error e → e ≠ .reverted →
      merge_strategy_of result = .discard) := by
  refine ⟨?_, ?_, ?_, ?_⟩
  · cases trap_data <;> simp only [exit_substack] <;> split <;> rfl
  · rintro s rfl; rfl
  · rintro rfl; rfl
  · rintro e rfl he
    cases e with
    | reverted => exact absurd rfl he
    | exception e => rfl
    | fatal c => rfl

/-- Witness for C8 (amended) on a reverted child. -/
theorem c8_merge_strategy_from_child_outcome_witness :
    ((exit_substack okHandler (.error .reverted)
        { state := 0, memory := [], gasometer := 0 }
        (.call (calltrap 0 none false))).2.take 3 =
      [.stateMerge (merge_strategy_of (.error .reverted)),
       .popSubstate (merge_strategy_of (.error .reverted)),
       .gasMerge (merge_strategy_of (.error .reverted))]) ∧
    merge_strategy_of (.error .reverted) = .revert :=
  ⟨(c8_merge_strategy_from_child_outcome okHandler (.error .reverted)
      { state := 0, memory := [], gasometer := 0 }
      (.call (calltrap 0 none false))).1,
   (c8_merge_strategy_from_child_outcome okHandler (.error .reverted)
      { state := 0, memory := [], gasometer := 0 }
      (.call (calltrap 0 none false))).2.2.1 rfl⟩

/-- A handler whose code deployment fails with the code-size-limit
exception. -/
def deployFailHandler : Handler :=
  { okHandler with
    deploy_create_code := fun _ _ => .error (.exception .createContractLimit) }

/-- C8 counterexample: a creation child that itself succeeded but whose code
deployment fails is written back as an exception, yet the state merge, the
pop and the gas merge all still use `Commit` (the strategy was derived from
the pre-deployment outcome) — `Discard` is never applied, contradicting the
claim that such an exception always triggers the Discard strategy. -/
theorem c8_deploy_failure_commit_counterexample :
    exit_substack deployFailHandler (.ok .stopped)
        { state := 0, memory := [], gasometer := 0 } (.create createtrap 7) =
      (.error (.exception .createContractLimit),
        [.stateMerge .commit, .popSubstate .commit, .gasMerge .commit,
         .feedbackCreate (.error (.exception .createContractLimit))]) ∧
    MergeStrategy.discard ∉
      pops_of (exit_substack deployFailHandler (.ok .stopped)
        { state := 0, memory := [], gasometer := 0 } (.create createtrap 7)).2 := by
  constructor
  · rfl
  · decide

/-- C2: in `finalize_transact` the caller's refund deposit equals the gas
meter's leftover gas times the original gas price when the final outcome
(after any code-deployment step for a creation) is success or revert, and
equals zero for any other exception or fatal error. -/
theorem c2_refund_policy (env : Handler) (invoke : TransactInvoke)
    (result : ExitResult) (machine : FinalizeMachine) :
    (∀ v, (finalize_transact env invoke result machine).1 = .ok v →
      (finalize_transact env invoke result machine).2.head? =
        some (.deposit invoke.caller (satMul machine.gas invoke.gas_price))) ∧
    ((finalize_transact env invoke result machine).1 = .error .reverted →
      (finalize_transact env invoke result machine).2.head? =
        some (.deposit invoke.caller (satMul machine.gas invoke.gas_price))) ∧
    (∀ e, (finalize_transact env invoke result machine).1 = .error e →
      e ≠ .reverted →
      (finalize_transact env invoke result machine).2.head? =
        some (.deposit invoke.caller 0)) := by
  have hres : (finalize_transact env invoke result machine).1 =
      finalize_work env invoke result machine := by
    cases h : finalize_work env invoke result machine <;>
      simp [finalize_transact, h]
  refine ⟨?_, ?_, ?_⟩
  · intro v hv
    rw [hres] at hv
    simp [finalize_transact, hv]
  · intro hv
    rw [hres] at hv
    simp [finalize_transact, hv]
  · intro e he hne
    rw [hres] at he
    cases e with
    | reverted => exact absurd rfl hne
    | exception e => simp [finalize_transact, he, satMul]
    | fatal c => simp [finalize_transact, he, satMul]

/-- Witness for C2: gas fee 100000 × 10 prepaid, leftover gas 40000 — a
successful run refunds 400000, an out-of-gas run refunds 0. -/
theorem c2_refund_policy_witness :
    (finalize_transact okHandler
        { create_address := none, gas_fee := 1000000, gas_price := 10, caller := 1 }
        (.ok .stopped) { gas := 40000, retbuf := [] }).2.head? =
      some (.deposit 1 400000) ∧
    (finalize_transact okHandler
        { create_address := none, gas_fee := 1000000, gas_price := 10, caller := 1 }
        (.error (.exception .outOfGas)) { gas := 40000, retbuf := [] }).2.head? =
      some (.deposit 1 0) := by
  constructor
  · have h := (c2_refund_policy okHandler
      { create_address := none, gas_fee := 1000000, gas_price := 10, caller := 1 }
      (.ok .stopped) { gas := 40000, retbuf := [] }).1 (.stopped, none) rfl
    rw [h]; decide
  · exact (c2_refund_policy okHandler
      { create_address := none, gas_fee := 1000000, gas_price := 10, caller := 1 }
      (.error (.exception .outOfGas)) { gas := 40000, retbuf := [] }).2.2
      (.exception .outOfGas) rfl (by decide)

/-- When the depth check passes, the trap decodes to `td` and the submeter
derivation succeeds, `enter_substack` hands the child off to the substack
routine with static flag `parent-static ∨ opcode-static` and gas budget
`child_gas_limit`. -/
theorem enter_substack_routine_handoff {I : Type} (config : Config)
    (env : Handler) (opcode : Opcode) (machine : ParentMachine) (depth : Nat)
    (td : CallCreateTrapData) (inner2 : Nat) (sm : Nat)
    (hdepth : depth < config.call_stack_limit)
    (hdec : env.decode opcode machine.inner = (.ok td, inner2))
    (hsub : env.submeter (child_gas_limit config machine.gas td)
      (fetch_code env td).1 = .ok sm) :
    routine_static (enter_substack (I := I) config env (.ok opcode) machine depth).2.2 =
      some (if machine.is_static then true else td.static_flag) ∧
    routine_gas (enter_substack (I := I) config env (.ok opcode) machine depth).2.2 =
      some (child_gas_limit config machine.gas td) := by
  have hne : ¬ depth ≥ config.call_stack_limit := not_le.mpr hdepth
  cases td with
  | call c =>
    simp only [fetch_code] at hsub
    constructor <;>
      simp [enter_substack, hne, hdec, hsub, fetch_code, routine_static,
        routine_gas, CallCreateTrapData.static_flag]
  | create c =>
    simp only [fetch_code] at hsub
    constructor <;>
      simp [enter_substack, hne, hdec, hsub, fetch_code, routine_static,
        routine_gas, CallCreateTrapData.static_flag]

/-- C7: the child frame is static if and only if the parent frame is static
or the call opcode itself requests static execution (a creation trap's own
flag being `false`); in particular a static parent forces the child static
regardless of the opcode's own flag. -/
theorem c7_static_inherited {I : Type} (config : Config) (env : Handler)
    (opcode : Opcode) (machine : ParentMachine) (depth : Nat)
    (td : CallCreateTrapData) (inner2 : Nat) (sm : Nat)
    (hdepth : depth < config.call_stack_limit)
    (hdec : env.decode opcode machine.inner = (.ok td, inner2))
    (hsub : env.submeter (child_gas_limit config machine.gas td)
      (fetch_code env td).1 = .ok sm) :
    routine_static (enter_substack (I := I) config env (.ok opcode) machine depth).2.2 =
      some (machine.is_static || td.static_flag) ∧
    (machine.is_static = true →
      routine_static (enter_substack (I := I) config env (.ok opcode) machine depth).2.2 =
        some true) := by
  have h := (enter_substack_routine_handoff (I := I) config env opcode machine
    depth td inner2 sm hdepth hdec hsub).1
  constructor
  · rw [h]; cases machine.is_static <;> rfl
  · intro hs; rw [h, hs]; rfl

/-- Witness for C7: a static parent with a call opcode that does not itself
request static execution still produces a static child. -/
theorem c7_static_inherited_witness :
    routine_static (enter_substack (I := Unit) config0
      { okHandler with
        decode := fun _ s => (.ok (.call (calltrap 0 none false)), s) }
      (.ok 241) (pmachine 100 true) 3).2.2 = some true := by
  have h := (c7_static_inherited (I := Unit) config0
    { okHandler with
      decode := fun _ s => (.ok (.call (calltrap 0 none false)), s) }
    241 (pmachine 100 true) 3 (.call (calltrap 0 none false)) 0 0
    (by decide) rfl rfl).1
  rw [h]; decide

/-- C4: with the 63/64 rule configured, the gas available to forward is the
parent's remaining gas minus its integer quotient by 64, the child's budget
before any stipend is the minimum of that figure and the explicitly
requested gas when one is present (the available figure itself when none
is), and the budget handed to the substack routine is `child_gas_limit`. -/
theorem c4_l64_gas_forwarding {I : Type} (config : Config) (env : Handler)
    (opcode : Opcode) (machine : ParentMachine) (depth : Nat)
    (td : CallCreateTrapData) (inner2 : Nat) (sm : Nat)
    (hdepth : depth < config.call_stack_limit)
    (hdec : env.decode opcode machine.inner = (.ok td, inner2))
    (hsub : env.submeter (child_gas_limit config machine.gas td)
      (fetch_code env td).1 = .ok sm) :
    (config.call_l64_after_gas = true →
      forwarded_gas config machine.gas td =
        min (machine.gas - machine.gas / 64)
          ((td.target_gas).getD (machine.gas - machine.gas / 64))) ∧
    (config.call_l64_after_gas = false →
      forwarded_gas config machine.gas td =
        min machine.gas ((td.target_gas).getD machine.gas)) ∧
    (config.call_l64_after_gas = true → td.target_gas = none →
      forwarded_gas config machine.gas td = machine.gas - machine.gas / 64) ∧
    routine_gas (enter_substack (I := I) config env (.ok opcode) machine depth).2.2 =
      some (child_gas_limit config machine.gas td) := by
  refine ⟨?_, ?_, ?_, ?_⟩
  · intro h64; simp [forwarded_gas, l64, h64]
  · intro h64; simp [forwarded_gas, l64, h64]
  · intro h64 h; simp [forwarded_gas, l64, h64, h]
  · exact (enter_substack_routine_handoff (I := I) config env opcode machine
      depth td inner2 sm hdepth hdec hsub).2

/-- Witness for C4: remaining gas 6400000, no explicit request (a creation
trap), 63/64 rule on — the child budget handed off is 6300000. -/
theorem c4_l64_gas_forwarding_witness :
    routine_gas (enter_substack (I := Unit) config0
      { okHandler with decode := fun _ s => (.ok (.create createtrap), s) }
      (.ok 241) (pmachine 6400000 false) 0).2.2 = some 6300000 := by
  have h := (c4_l64_gas_forwarding (I := Unit) config0
    { okHandler with decode := fun _ s => (.ok (.create createtrap), s) }
    241 (pmachine 6400000 false) 0 (.create createtrap) 0 0
    (by decide) rfl rfl).2.2.2
  rw [h]; decide

/-- C5: the configured stipend is added to the child's budget exactly for a
call trap carrying a non-zero value; zero-value calls and creations get the
plain forwarded gas. The budget handed to the substack routine is this
`child_gas_limit`. -/
theorem c5_stipend_for_value_calls {I : Type} (config : Config) (env : Handler)
    (opcode : Opcode) (machine : ParentMachine) (depth : Nat)
    (td : CallCreateTrapData) (inner2 : Nat) (sm : Nat)
    (hdepth : depth < config.call_stack_limit)
    (hdec : env.decode opcode machine.inner = (.ok td, inner2))
    (hsub : env.submeter (child_gas_limit config machine.gas td)
      (fetch_code env td).1 = .ok sm) :
    routine_gas (enter_substack (I := I) config env (.ok opcode) machine depth).2.2 =
      some (child_gas_limit config machine.gas td) ∧
    child_gas_limit config machine.gas td =
      (match td with
       | .call c =>
         if c.value ≠ 0 then
           satAdd (forwarded_gas config machine.gas td) config.call_stipend
         else forwarded_gas config machine.gas td
       | .create _ => forwarded_gas config machine.gas td) := by
  constructor
  · exact (enter_substack_routine_handoff (I := I) config env opcode machine
      depth td inner2 sm hdepth hdec hsub).2
  · cases td with
    | call c => simp [child_gas_limit, CallTrapData.has_value]
    | create c => rfl

/-- Witness for C5: a value-bearing call requesting 1000000 gas out of
6400000 remaining receives the 2300 stipend on top: budget 1002300. -/
theorem c5_stipend_for_value_calls_witness :
    routine_gas (enter_substack (I := Unit) config0
      { okHandler with
        decode := fun _ s => (.ok (.call (calltrap 5 (some 1000000) false)), s) }
      (.ok 241) (pmachine 6400000 false) 0).2.2 = some 1002300 := by
  have h := (c5_stipend_for_value_calls (I := Unit) config0
    { okHandler with
      decode := fun _ s => (.ok (.call (calltrap 5 (some 1000000) false)), s) }
    241 (pmachine 6400000 false) 0 (.call (calltrap 5 (some 1000000) false)) 0 0
    (by decide) rfl rfl).1
  rw [h]; decide

/-- The key-marking loop emits only hot-mark events. -/
theorem mark_keys_neutral (env : Handler) (a : H160) (ks : List H256) :
    (mark_keys env a ks).2.all Event.neutral = true := by
  induction ks with
  | nil => rfl
  | cons k ks ih =>
    simp only [mark_keys]
    cases env.mark_hot a (some k) with
    | error e => rfl
    | ok u =>
      rcases h : mark_keys env a ks with ⟨r, evs⟩
      rw [h] at ih
      simpa [Event.neutral] using ih

/-- The access-list loop emits only hot-mark events. -/
theorem mark_access_list_neutral (env : Handler)
    (l : List (H160 × List H256)) :
    (mark_access_list env l).2.all Event.neutral = true := by
  induction l with
  | nil => rfl
  | cons p rest ih =>
    rcases p with ⟨a, ks⟩
    simp only [mark_access_list]
    cases env.mark_hot a none with
    | error e => rfl
    | ok u =>
      have hk := mark_keys_neutral env a ks
      rcases h : mark_keys env a ks with ⟨r, evs⟩
      rw [h] at hk
      cases r with
      | error e => simpa [Event.neutral] using hk
      | ok u2 =>
        rcases h2 : mark_access_list env rest with ⟨r2, evs2⟩
        rw [h2] at ih
        simp [Event.neutral, List.all_append, hk, ih]

/-- The warm-address marks emit only hot-mark events. -/
theorem warm_addresses_neutral (config : Config) (env : Handler)
    (caller address : H160) :
    (warm_addresses config env caller address).2.all Event.neutral = true := by
  cases hi : config.increase_state_access_gas with
  | false => simp [warm_addresses, hi]
  | true =>
    cases hw : config.warm_coinbase_address with
    | false =>
      cases hc : env.mark_hot caller none with
      | error e => simp [warm_addresses, hi, hw, hc]
      | ok u =>
        cases ha : env.mark_hot address none with
        | error e => simp [warm_addresses, hi, hw, hc, ha, Event.neutral]
        | ok v => simp [warm_addresses, hi, hw, hc, ha, Event.neutral]
    | true =>
      cases hcb : env.mark_hot env.block_coinbase none with
      | error e => simp [warm_addresses, hi, hw, hcb]
      | ok u =>
        cases hc : env.mark_hot caller none with
        | error e => simp [warm_addresses, hi, hw, hcb, hc, Event.neutral]
        | ok u2 =>
          cases ha : env.mark_hot address none with
          | error e => simp [warm_addresses, hi, hw, hcb, hc, ha, Event.neutral]
          | ok v => simp [warm_addresses, hi, hw, hcb, hc, ha, Event.neutral]

/-- The `work` closure of `new_transact` never pushes, pops or deposits on
its own: its trace is hot marks, a code lookup and a nonce increment. -/
theorem transact_work_neutral (config : Config) (env : Handler)
    (invoke : TransactInvoke) (context : Context)
    (transaction_context : TransactionContext) (transfer : Transfer)
    (args : TransactArgs) :
    (transact_work config env invoke context transaction_context transfer
      args).2.all Event.neutral = true := by
  cases args with
  | call caller address value data gas_limit gas_price access_list =>
    have h1 := mark_access_list_neutral env access_list
    have h2 := warm_addresses_neutral config env caller address
    rcases hma : mark_access_list env access_list with ⟨r1, evs1⟩
    rw [hma] at h1
    cases r1 with
    | error e => simp [transact_work, hma, h1]
    | ok u =>
      cases hg : env.new_transact_call_gasometer gas_limit (env.code address)
          data access_list with
      | error e =>
        simp [transact_work, hma, hg, List.all_append, h1, Event.neutral]
      | ok g =>
        cases hm : env.make_enter_call_machine (env.code address) data false
            (some transfer)
            { context := context, transaction_context := transaction_context,
              retbuf := [], gas := gas_limit } g with
        | error e =>
          simp [transact_work, hma, hg, hm, List.all_append, h1, Event.neutral]
        | ok mtok =>
          rcases hwa : warm_addresses config env caller address with ⟨r2, evs2⟩
          rw [hwa] at h2
          cases r2 with
          | error e =>
            simp [transact_work, hma, hg, hm, hwa, List.all_append, h1, h2,
              Event.neutral]
          | ok u2 =>
            cases hn : env.inc_nonce caller with
            | error e =>
              simp [transact_work, hma, hg, hm, hwa, hn, List.all_append, h1,
                h2, Event.neutral]
            | ok u3 =>
              simp [transact_work, hma, hg, hm, hwa, hn, List.all_append, h1,
                h2, Event.neutral]
  | create caller value init_code salt gas_limit gas_price access_list =>
    cases hg : env.new_transact_create_gasometer gas_limit init_code
        access_list with
    | error e => simp [transact_work, hg]
    | ok g =>
      cases hm : env.make_enter_create_machine caller init_code false transfer
          { context := context, transaction_context := transaction_context,
            retbuf := [], gas := gas_limit } g with
      | error e => simp [transact_work, hg, hm]
      | ok mtok => simp [transact_work, hg, hm]

/-- A trace of neutral events contains no substate push. -/
theorem neutral_push_count (l : List Event)
    (h : l.all Event.neutral = true) : push_count l = 0 := by
  induction l with
  | nil => rfl
  | cons e l ih =>
    simp only [List.all_cons, Bool.and_eq_true] at h
    have h2 := ih h.2
    cases e <;> simp_all [push_count, Event.neutral, List.countP_cons]

/-- A trace of neutral events contains no substate pop. -/
theorem neutral_pops (l : List Event)
    (h : l.all Event.neutral = true) : pops_of l = [] := by
  induction l with
  | nil => rfl
  | cons e l ih =>
    simp only [List.all_cons, Bool.and_eq_true] at h
    have h2 := ih h.2
    cases e <;> simp_all [pops_of, Event.neutral]

/-- A trace of neutral events contains no deposit. -/
theorem neutral_deposit_count (l : List Event)
    (h : l.all Event.neutral = true) : deposit_count l = 0 := by
  induction l with
  | nil => rfl
  | cons e l ih =>
    simp only [List.all_cons, Bool.and_eq_true] at h
    have h2 := ih h.2
    cases e <;> simp_all [deposit_count, Event.neutral, List.countP_cons]

/-- When the `work` closure succeeds, the `TransactInvoke` it returns is
exactly the record `new_transact` built before pushing the scope. -/
theorem transact_work_ok (config : Config) (env : Handler)
    (invoke : TransactInvoke) (context : Context)
    (transaction_context : TransactionContext) (transfer : Transfer)
    (args : TransactArgs) (i : TransactInvoke) (m : Nat)
    (h : (transact_work config env invoke context transaction_context transfer
      args).1 = .ok (i, m)) : i = invoke := by
  cases args with
  | call caller address value data gas_limit gas_price access_list =>
    simp only [transact_work] at h
    repeat' split at h
    all_goals simp_all
  | create caller value init_code salt gas_limit gas_price access_list =>
    simp only [transact_work] at h
    repeat' split at h
    all_goals simp_all

/-- Unfolding of `new_transact` past a successful fee withdrawal. -/
theorem new_transact_unfold (config : Config) (env : Handler)
    (args : TransactArgs)
    (hw : env.withdrawal args.caller (satMul args.gas_limit args.gas_price) =
      .ok ()) :
    new_transact config env args =
      (match transact_work config env (transact_invoke_of env args)
          { address := transact_address env args, caller := args.caller,
            apparent_value := args.value }
          { origin := args.caller, gas_price := args.gas_price }
          { source := args.caller, target := transact_address env args,
            value := args.value } args with
       | (.ok ret, work_events) =>
         (.ok ret,
           .withdrawal args.caller (satMul args.gas_limit args.gas_price) ::
             .pushSubstate :: work_events)
       | (.error err, work_events) =>
         (.error err,
           .withdrawal args.caller (satMul args.gas_limit args.gas_price) ::
             .pushSubstate :: (work_events ++ [.popSubstate .discard]))) := by
  simp only [new_transact, hw]
  rcases hw2 : transact_work config env (transact_invoke_of env args)
      { address := transact_address env args, caller := args.caller,
        apparent_value := args.value }
      { origin := args.caller, gas_price := args.gas_price }
      { source := args.caller, target := transact_address env args,
        value := args.value } args with ⟨wr, wevs⟩
  cases wr <;> rfl

/-- C3: `new_transact` keeps the substate stack balanced. If the initial fee
withdrawal fails, the whole call fails with that error and no backend call
at all is made (in particular no push). If the withdrawal succeeded and the
call nevertheless fails, the trace holds exactly one push, exactly one pop
(with the `Discard` strategy), and no deposit (no refund of the prepaid
fee). -/
theorem c3_substate_balance (config : Config) (env : Handler)
    (args : TransactArgs) :
    (∀ e, env.withdrawal args.caller (satMul args.gas_limit args.gas_price) =
        .error e →
      (new_transact config env args).1 = .error e ∧
      (new_transact config env args).2 = []) ∧
    (env.withdrawal args.caller (satMul args.gas_limit args.gas_price) =
        .ok () →
      ∀ e, (new_transact config env args).1 = .error e →
        push_count (new_transact config env args).2 = 1 ∧
        pops_of (new_transact config env args).2 = [.discard] ∧
        deposit_count (new_transact config env args).2 = 0) := by
  constructor
  · intro e hw
    constructor <;> simp [new_transact, hw]
  · intro hw e h
    have hu := new_transact_unfold config env args hw
    have hne := transact_work_neutral config env (transact_invoke_of env args)
      { address := transact_address env args, caller := args.caller,
        apparent_value := args.value }
      { origin := args.caller, gas_price := args.gas_price }
      { source := args.caller, target := transact_address env args,
        value := args.value } args
    rcases hw2 : transact_work config env (transact_invoke_of env args)
        { address := transact_address env args, caller := args.caller,
          apparent_value := args.value }
        { origin := args.caller, gas_price := args.gas_price }
        { source := args.caller, target := transact_address env args,
          value := args.value } args with ⟨wr, wevs⟩
    rw [hw2] at hu hne
    cases wr with
    | ok ret => rw [hu] at h; simp at h
    | error e2 =>
      rw [hu] at h ⊢
      have hp := neutral_push_count wevs hne
      have hpo := neutral_pops wevs hne
      have hd := neutral_deposit_count wevs hne
      refine ⟨?_, ?_, ?_⟩
      · simp only [push_count, List.countP_cons, List.countP_append] at hp ⊢
        simp [hp]
      · simp only [pops_of, List.filterMap_cons, List.filterMap_append]
          at hpo ⊢
        simp [hpo]
      · simp only [deposit_count, List.countP_cons, List.countP_append]
          at hd ⊢
        simp [hd]

/-- A handler whose fee withdrawal fails with insufficient funds. -/
def poorHandler : Handler :=
  { okHandler with withdrawal := fun _ _ => .error (.exception .outOfFund) }

/-- A handler whose transact-gasometer construction fails with out-of-gas
(an intrinsic-gas failure after the scope was pushed). -/
def gasFailHandler : Handler :=
  { okHandler with
    new_transact_create_gasometer := fun _ _ _ => .error (.exception .outOfGas) }

/-- Witness for C3: a failing withdrawal produces an empty trace; a
post-push failure produces exactly one push, one `Discard` pop and no
deposit. -/
theorem c3_substate_balance_witness :
    ((new_transact config0 poorHandler
        (.create 1 0 [] none 100000 10 [])).1 =
          .error (.exception .outOfFund) ∧
      (new_transact config0 poorHandler
        (.create 1 0 [] none 100000 10 [])).2 = []) ∧
    (push_count (new_transact config0 gasFailHandler
        (.create 1 0 [] none 100000 10 [])).2 = 1 ∧
      pops_of (new_transact config0 gasFailHandler
        (.create 1 0 [] none 100000 10 [])).2 = [.discard] ∧
      deposit_count (new_transact config0 gasFailHandler
        (.create 1 0 [] none 100000 10 [])).2 = 0) :=
  ⟨(c3_substate_balance config0 poorHandler
      (.create 1 0 [] none 100000 10 [])).1 (.exception .outOfFund) rfl,
   (c3_substate_balance config0 gasFailHandler
      (.create 1 0 [] none 100000 10 [])).2 rfl (.exception .outOfGas) rfl⟩

/-- Saturating multiplication is monotone in its first argument. -/
theorem satMul_le_satMul (a b c : U256) (h : a ≤ b) :
    satMul a c ≤ satMul b c :=
  min_le_min (Nat.mul_le_mul h le_rfl) le_rfl

/-- Refund plus coinbase reward reassemble the saturated fee whenever the
refunded gas does not exceed the gas limit. -/
theorem sat_fee_split (l p rg : U256) (h : rg ≤ l) :
    satMul rg p + satSub (satMul l p) (satMul rg p) = satMul l p := by
  have h2 := satMul_le_satMul rg l p h
  simp only [satSub]
  exact Nat.add_sub_cancel' h2

/-- C1 (amended): the fee withheld at `new_transact` is
`gas_limit × gas_price` with saturating multiplication — equal to the exact
product whenever it fits in 256 bits — the withdrawal event carries exactly
that fee, and after `finalize_transact` the refunded fee plus the coinbase
reward equals that original fee, for every outcome, provided the meter's
leftover gas does not exceed the gas limit. -/
theorem c1_fee_arithmetic (config : Config) (env : Handler)
    (args : TransactArgs) (invoke : TransactInvoke) (mtok : Nat)
    (h : (new_transact config env args).1 = .ok (invoke, mtok)) :
    invoke.gas_fee = satMul args.gas_limit args.gas_price ∧
    (args.gas_limit * args.gas_price < 2 ^ 256 →
      invoke.gas_fee = args.gas_limit * args.gas_price) ∧
    (new_transact config env args).2.head? =
      some (.withdrawal args.caller (satMul args.gas_limit args.gas_price)) ∧
    (∀ (env2 : Handler) (result : ExitResult) (fm : FinalizeMachine),
      fm.gas ≤ args.gas_limit →
      ∃ rf cr rest,
        (finalize_transact env2 invoke result fm).2 =
          .deposit invoke.caller rf :: .deposit env2.block_coinbase cr :: rest ∧
        rf + cr = invoke.gas_fee) := by
  cases hw : env.withdrawal args.caller (satMul args.gas_limit args.gas_price) with
  | error e => simp [new_transact, hw] at h
  | ok u =>
    cases u
    have hu := new_transact_unfold config env args hw
    rcases hw2 : transact_work config env (transact_invoke_of env args)
        { address := transact_address env args, caller := args.caller,
          apparent_value := args.value }
        { origin := args.caller, gas_price := args.gas_price }
        { source := args.caller, target := transact_address env args,
          value := args.value } args with ⟨wr, wevs⟩
    rw [hw2] at hu
    cases wr with
    | error e2 => rw [hu] at h; simp at h
    | ok ret =>
      rw [hu] at h
      simp only [Except.ok.injEq] at h
      have hi : invoke = transact_invoke_of env args := by
        refine transact_work_ok config env (transact_invoke_of env args)
          { address := transact_address env args, caller := args.caller,
            apparent_value := args.value }
          { origin := args.caller, gas_price := args.gas_price }
          { source := args.caller, target := transact_address env args,
            value := args.value } args invoke mtok ?_
        rw [hw2, h]
      subst hi
      refine ⟨rfl, ?_, ?_, ?_⟩
      · intro hlt
        simp only [transact_invoke_of, satMul, U256.maxValue]
        exact min_eq_left (Nat.le_pred_of_lt hlt)
      · rw [hu]; rfl
      · intro env2 result fm hle
        have hfee : (transact_invoke_of env args).gas_fee =
            satMul args.gas_limit args.gas_price := rfl
        have hprice : (transact_invoke_of env args).gas_price =
            args.gas_price := rfl
        cases hfw : finalize_work env2 (transact_invoke_of env args) result fm with
        | ok v =>
          refine ⟨satMul fm.gas args.gas_price,
            satSub (satMul args.gas_limit args.gas_price)
              (satMul fm.gas args.gas_price), [.popSubstate .commit], ?_, ?_⟩
          · simp [finalize_transact, hfw, hprice, hfee]
          · rw [hfee]; exact sat_fee_split args.gas_limit args.gas_price fm.gas hle
        | error e3 =>
          cases e3 with
          | reverted =>
            refine ⟨satMul fm.gas args.gas_price,
              satSub (satMul args.gas_limit args.gas_price)
                (satMul fm.gas args.gas_price), [.popSubstate .discard], ?_, ?_⟩
            · simp [finalize_transact, hfw, hprice, hfee]
            · rw [hfee]
              exact sat_fee_split args.gas_limit args.gas_price fm.gas hle
          | exception e4 =>
            refine ⟨satMul 0 args.gas_price,
              satSub (satMul args.gas_limit args.gas_price)
                (satMul 0 args.gas_price), [.popSubstate .discard], ?_, ?_⟩
            · simp [finalize_transact, hfw, hprice, hfee]
            · rw [hfee]
              exact sat_fee_split args.gas_limit args.gas_price 0 (Nat.zero_le _)
          | fatal c =>
            refine ⟨satMul 0 args.gas_price,
              satSub (satMul args.gas_limit args.gas_price)
                (satMul 0 args.gas_price), [.popSubstate .discard], ?_, ?_⟩
            · simp [finalize_transact, hfw, hprice, hfee]
            · rw [hfee]
              exact sat_fee_split args.gas_limit args.gas_price 0 (Nat.zero_le _)

/-- C1 counterexample: with `gas_limit = 2^255` and `gas_price = 2` the
withheld fee is the saturated value `2^256 − 1`, not the exact product
`gas_limit × gas_price = 2^256` — the fee arithmetic is saturating, not
exact. -/
theorem c1_exact_product_counterexample :
    (new_transact config0 okHandler
        (.create 1 0 [] none (2 ^ 255) 2 [])).1 =
      .ok (transact_invoke_of okHandler (.create 1 0 [] none (2 ^ 255) 2 []), 0) ∧
    (transact_invoke_of okHandler
        (.create 1 0 [] none (2 ^ 255) 2 [])).gas_fee ≠ 2 ^ 255 * 2 := by
  constructor
  · rfl
  · decide

/-- Witness for C1 (amended): gas limit 100000 at price 10 is withheld as
exactly 1000000, and a successful finalize splits it into refund plus
coinbase reward summing back to 1000000. -/
theorem c1_fee_arithmetic_witness :
    (transact_invoke_of okHandler (.create 1 0 [] none 100000 10 [])).gas_fee =
      1000000 ∧
    (∃ rf cr rest,
      (finalize_transact okHandler
          (transact_invoke_of okHandler (.create 1 0 [] none 100000 10 []))
          (.ok .stopped) { gas := 40000, retbuf := [] }).2 =
        .deposit (transact_invoke_of okHandler
            (.create 1 0 [] none 100000 10 [])).caller rf ::
          .deposit okHandler.block_coinbase cr :: rest ∧
      rf + cr = (transact_invoke_of okHandler
        (.create 1 0 [] none 100000 10 [])).gas_fee) := by
  have h := c1_fee_arithmetic config0 okHandler (.create 1 0 [] none 100000 10 [])
    (transact_invoke_of okHandler (.create 1 0 [] none 100000 10 [])) 0 rfl
  exact ⟨by rw [h.1]; rfl,
    h.2.2.2 okHandler (.ok .stopped) { gas := 40000, retbuf := [] } (by decide)⟩

/-- When every hot-mark succeeds, the key loop marks all keys in order. -/
theorem mark_keys_all_ok (env : Handler) (a : H160) (ks : List H256)
    (hM : ∀ x k, env.mark_hot x k = .ok ()) :
    mark_keys env a ks = (.ok (), ks.map fun k => Event.markHot a (some k)) := by
  induction ks with
  | nil => rfl
  | cons k ks ih => simp [mark_keys, hM, ih]

/-- When every hot-mark succeeds, the access-list loop marks each address
and then its keys, in list order. -/
theorem mark_access_list_all_ok (env : Handler)
    (l : List (H160 × List H256))
    (hM : ∀ x k, env.mark_hot x k = .ok ()) :
    mark_access_list env l = (.ok (), hot_mark_events l) := by
  induction l with
  | nil => rfl
  | cons p rest ih =>
    rcases p with ⟨a, ks⟩
    simp [mark_access_list, hM, mark_keys_all_ok env a ks hM, ih,
      hot_mark_events]

/-- On the `Call` arm, with all hot-marks succeeding, the `work` trace is
the ordered access-list hot marks followed by the target code lookup and
then the remaining events. -/
theorem transact_work_call_trace (config : Config) (env : Handler)
    (invoke : TransactInvoke) (context : Context)
    (txc : TransactionContext) (transfer : Transfer)
    (caller address : H160) (value : U256) (data : List Nat)
    (gas_limit gas_price : U256) (access_list : List (H160 × List H256))
    (hM : ∀ a k, env.mark_hot a k = .ok ()) :
    ∃ tail,
      (transact_work config env invoke context txc transfer
        (.call caller address value data gas_limit gas_price access_list)).2 =
        hot_mark_events access_list ++ .codeLookup address :: tail := by
  simp only [transact_work, mark_access_list_all_ok env access_list hM]
  cases hg : env.new_transact_call_gasometer gas_limit (env.code address)
      data access_list with
  | error e => refine ⟨[], ?_⟩; simp [hg]
  | ok g =>
    cases hm : env.make_enter_call_machine (env.code address) data false
        (some transfer)
        { context := context, transaction_context := txc, retbuf := [],
          gas := gas_limit } g with
    | error e => refine ⟨[], ?_⟩; simp [hg, hm]
    | ok mtok =>
      rcases hwa : warm_addresses config env caller address with ⟨r2, wevs⟩
      cases r2 with
      | error e =>
        refine ⟨wevs, ?_⟩; simp [hg, hm, hwa, List.append_assoc]
      | ok u2 =>
        cases hn : env.inc_nonce caller with
        | error e =>
          refine ⟨wevs, ?_⟩; simp [hg, hm, hwa, hn, List.append_assoc]
        | ok u3 =>
          refine ⟨wevs ++ [.incNonce caller], ?_⟩
          simp [hg, hm, hwa, hn, List.append_assoc]

/-- C9: for a `Call` transaction (fee affordable, hot-marking available),
the trace after the fee withdrawal and substate push is exactly the
access-list hot marks — each address first, then its storage keys in list
order — followed by the target code lookup, before anything else. -/
theorem c9_access_list_hot_order (config : Config) (env : Handler)
    (caller address : H160) (value : U256) (data : List Nat)
    (gas_limit gas_price : U256) (access_list : List (H160 × List H256))
    (hW : env.withdrawal caller (satMul gas_limit gas_price) = .ok ())
    (hM : ∀ a k, env.mark_hot a k = .ok ()) :
    ∃ rest,
      (new_transact config env
        (.call caller address value data gas_limit gas_price access_list)).2 =
        .withdrawal caller (satMul gas_limit gas_price) :: .pushSubstate ::
          (hot_mark_events access_list ++ .codeLookup address :: rest) := by
  simp only [new_transact, TransactArgs.caller, TransactArgs.gas_limit,
    TransactArgs.gas_price, TransactArgs.value, hW, transact_address]
  obtain ⟨tail, ht⟩ := transact_work_call_trace config env
    (transact_invoke_of env
      (.call caller address value data gas_limit gas_price access_list))
    { address := address, caller := caller, apparent_value := value }
    { origin := caller, gas_price := gas_price }
    { source := caller, target := address, value := value }
    caller address value data gas_limit gas_price access_list hM
  rcases hw2 : transact_work config env
      (transact_invoke_of env
        (.call caller address value data gas_limit gas_price access_list))
      { address := address, caller := caller, apparent_value := value }
      { origin := caller, gas_price := gas_price }
      { source := caller, target := address, value := value }
      (.call caller address value data gas_limit gas_price access_list)
      with ⟨wr, wevs⟩
  rw [hw2] at ht
  cases wr with
  | ok ret =>
    refine ⟨tail, ?_⟩
    simpa using ht
  | error e =>
    refine ⟨tail ++ [.popSubstate .discard], ?_⟩
    have ht2 : wevs =
        hot_mark_events access_list ++ Event.codeLookup address :: tail := by
      simpa using ht
    simp [ht2, List.append_assoc]

/-- Witness for C9: access list `[(7, [11, 12])]` marks address 7, then
keys 11 and 12, in that order, before the code lookup at target 2. -/
theorem c9_access_list_hot_order_witness :
    ∃ rest,
      (new_transact config0 okHandler
        (.call 1 2 0 [] 100000 10 [(7, [11, 12])])).2 =
        .withdrawal 1 (satMul 100000 10) :: .pushSubstate ::
          (hot_mark_events [(7, [11, 12])] ++ .codeLookup 2 :: rest) :=
  c9_access_list_hot_order config0 okHandler 1 2 0 [] 100000 10
    [(7, [11, 12])] rfl (fun _ _ => rfl)
